import Mathlib

/-!
Shallow embedding of the SmartPy FA1.2 token contract in `FA12.py`
(the assembled contract, class `FA12`, which mixes `FA12_core` with
`FA12_mint_burn`, `FA12_administrator` and `FA12_pause`, so that
`is_administrator sender = (sender == data.administrator)` and
`is_paused = data.paused`).

Modelling conventions, matching SmartPy/Michelson semantics:
* a `big_map` / `map` is an association list; `m[k]` on an absent key is a
  runtime failure (`Err.MissingKey`), while `m.get(k, 0)` defaults to `0`;
* `sp.as_nat` fails on a negative argument (`Err.NatUnderflow`);
* the boolean operators `|` and `&` of SmartPy are lazy (short-circuit),
  which is observable in the authorization check of `transfer`;
* an entry point is a function `Storage → Except Err Storage`; any failure
  rolls the whole call back (the caller keeps the pre-state).
-/

namespace FA12

instance {ε α : Type} [DecidableEq ε] [DecidableEq α] :
    DecidableEq (Except ε α) := fun x y =>
  match x, y with
  | Except.ok a, Except.ok b =>
    if h : a = b then Decidable.isTrue (congrArg Except.ok h)
    else Decidable.isFalse fun hc => h (Except.ok.inj hc)
  | Except.ok _, Except.error _ => Decidable.isFalse fun hc => Except.noConfusion hc
  | Except.error _, Except.ok _ => Decidable.isFalse fun hc => Except.noConfusion hc
  | Except.error e, Except.error f =>
    if h : e = f then Decidable.isTrue (congrArg Except.error h)
    else Decidable.isFalse fun hc => h (Except.error.inj hc)

abbrev Addr := Nat

/-- Error kinds of the contract.  The first five come from `FA12_Error`;
`MissingKey` is the Michelson failure of reading an absent map key, and
`NatUnderflow` the failure of `sp.as_nat` on a negative value. -/
inductive Err where
  | NotAdmin
  | InsufficientBalance
  | UnsafeAllowanceChange
  | Paused
  | NotAllowed
  | MissingKey
  | NatUnderflow
deriving DecidableEq, Repr

/-- The value type of the `balances` big-map:
`sp.TRecord(approvals = sp.TMap(sp.TAddress, sp.TNat), balance = sp.TNat)`. -/
structure Account where
  balance : Nat
  approvals : List (Addr × Nat)
deriving DecidableEq, Repr

/-- The contract storage: `balances`, `totalSupply` (from `FA12_core.__init__`),
`administrator` and `paused` (extra storage added by `FA12.__init__`). -/
structure Storage where
  balances : List (Addr × Account)
  totalSupply : Nat
  administrator : Addr
  paused : Bool
deriving DecidableEq, Repr

/-- Map read, first-occurrence semantics. -/
def lookupA {β : Type} : List (Addr × β) → Addr → Option β
  | [], _ => none
  | (k, v) :: rest, a => if k = a then some v else lookupA rest a

/-- Map write `m[k] = v`: replaces the first binding of `k`, or appends. -/
def insertA {β : Type} : List (Addr × β) → Addr → β → List (Addr × β)
  | [], a, v => [(a, v)]
  | (k, w) :: rest, a, v =>
      if k = a then (a, v) :: rest else (k, w) :: insertA rest a v

/-- `m[k]` as a fallible read: absent key is a runtime failure. -/
def mapGet {β : Type} (m : List (Addr × β)) (k : Addr) : Except Err β :=
  match lookupA m k with
  | some v => Except.ok v
  | none => Except.error Err.MissingKey

/-- `sp.as_nat`: fails on a negative integer. -/
def asNat (i : Int) : Except Err Nat :=
  if i < 0 then Except.error Err.NatUnderflow else Except.ok i.toNat

/-- `FA12_core.addAddressIfNecessary`: materialize a zero account if absent. -/
def addAddressIfNecessary (m : List (Addr × Account)) (a : Addr) :
    List (Addr × Account) :=
  if (lookupA m a).isSome then m
  else insertA m a { balance := 0, approvals := [] }

/-- The authorization check of `FA12_core.transfer`:
`sp.verify(is_administrator(sender) | (~is_paused() & ((from_ == sender) |
(balances[from_].approvals[sender] >= value))), NotAllowed)`, with SmartPy's
lazy `|`/`&`; the inner map reads fail on absent keys. -/
def transferAuthCheck (st : Storage) (sender from_ : Addr) (value : Nat) :
    Except Err Unit :=
  if sender = st.administrator then Except.ok ()
  else if st.paused then Except.error Err.NotAllowed
  else if from_ = sender then Except.ok ()
  else
    match lookupA st.balances from_ with
    | none => Except.error Err.MissingKey
    | some acc =>
      match lookupA acc.approvals sender with
      | none => Except.error Err.MissingKey
      | some w => if value ≤ w then Except.ok () else Except.error Err.NotAllowed

/-- `FA12_core.transfer` of the assembled contract. -/
def transfer (st : Storage) (sender from_ to_ : Addr) (value : Nat) :
    Except Err Storage :=
  match transferAuthCheck st sender from_ value with
  | Except.error e => Except.error e
  | Except.ok _ =>
    let b0 := addAddressIfNecessary (addAddressIfNecessary st.balances from_) to_
    match lookupA b0 from_ with
    | none => Except.error Err.MissingKey
    | some accF =>
      if accF.balance < value then Except.error Err.InsufficientBalance
      else
        match asNat ((accF.balance : Int) - (value : Int)) with
        | Except.error e => Except.error e
        | Except.ok newBalF =>
          let b1 := insertA b0 from_ { accF with balance := newBalF }
          match lookupA b1 to_ with
          | none => Except.error Err.MissingKey
          | some accT =>
            let b2 := insertA b1 to_ { accT with balance := accT.balance + value }
            if from_ ≠ sender ∧ sender ≠ st.administrator then
              match lookupA b2 from_ with
              | none => Except.error Err.MissingKey
              | some accF2 =>
                match lookupA accF2.approvals sender with
                | none => Except.error Err.MissingKey
                | some cur =>
                  match asNat ((cur : Int) - (value : Int)) with
                  | Except.error e => Except.error e
                  | Except.ok newAllow =>
                    let ap2 := insertA accF2.approvals sender newAllow
                    let accF3 := { accF2 with approvals := ap2 }
                    Except.ok { st with balances := insertA b2 from_ accF3 }
            else Except.ok { st with balances := b2 }

/-- `FA12_core.approve`: materialize the sender, verify not paused, read the
current approval with default `0`, check the unsafe-allowance-change rule,
then store the new value. -/
def approve (st : Storage) (sender spender : Addr) (value : Nat) :
    Except Err Storage :=
  let b0 := addAddressIfNecessary st.balances sender
  if st.paused then Except.error Err.Paused
  else
    match lookupA b0 sender with
    | none => Except.error Err.MissingKey
    | some acc =>
      let alreadyApproved := (lookupA acc.approvals spender).getD 0
      if alreadyApproved = 0 ∨ value = 0 then
        let acc2 := { acc with approvals := insertA acc.approvals spender value }
        Except.ok { st with balances := insertA b0 sender acc2 }
      else Except.error Err.UnsafeAllowanceChange

/-- `FA12_mint_burn.mint`: no authorization check; materialize the target,
credit it, bump `totalSupply`.  The `sender` parameter is unused, exactly as
in the source. -/
def mint (st : Storage) (sender address : Addr) (value : Nat) :
    Except Err Storage :=
  let _ := sender
  let b0 := addAddressIfNecessary st.balances address
  match lookupA b0 address with
  | none => Except.error Err.MissingKey
  | some acc =>
    Except.ok { st with
      balances := insertA b0 address { acc with balance := acc.balance + value },
      totalSupply := st.totalSupply + value }

/-- `FA12_mint_burn.burn`: admin only; reads `balances[address]` directly
(no materialization, so an absent address is a missing-key failure), then
debits the balance and `totalSupply` through `sp.as_nat`. -/
def burn (st : Storage) (sender address : Addr) (value : Nat) :
    Except Err Storage :=
  if sender = st.administrator then
    match lookupA st.balances address with
    | none => Except.error Err.MissingKey
    | some acc =>
      if acc.balance < value then Except.error Err.InsufficientBalance
      else
        match asNat ((acc.balance : Int) - (value : Int)) with
        | Except.error e => Except.error e
        | Except.ok newBal =>
          match asNat ((st.totalSupply : Int) - (value : Int)) with
          | Except.error e => Except.error e
          | Except.ok newSupply =>
            Except.ok { st with
              balances := insertA st.balances address { acc with balance := newBal },
              totalSupply := newSupply }
  else Except.error Err.NotAdmin

/-- `FA12_administrator.setAdministrator`. -/
def setAdministrator (st : Storage) (sender newAdmin : Addr) :
    Except Err Storage :=
  if sender = st.administrator then
    Except.ok { st with administrator := newAdmin }
  else Except.error Err.NotAdmin

/-- `FA12_pause.setPause`. -/
def setPause (st : Storage) (sender : Addr) (flag : Bool) :
    Except Err Storage :=
  if sender = st.administrator then
    Except.ok { st with paused := flag }
  else Except.error Err.NotAdmin

/-- Pure value of the `getBalance` view: `0` for an absent account. -/
def getBalance (st : Storage) (address : Addr) : Nat :=
  match lookupA st.balances address with
  | some acc => acc.balance
  | none => 0

/-- Pure value of the `getAllowance` view: `0` if the owner is absent or has
no approval entry for the spender. -/
def getAllowance (st : Storage) (owner spender : Addr) : Nat :=
  match lookupA st.balances owner with
  | some acc => (lookupA acc.approvals spender).getD 0
  | none => 0

/-- `FA12_core.getBalance` as an entry point: may in principle fail or write
the storage; the branch on `contains` guards the inner `balances[params]`
read. -/
def getBalanceEp (st : Storage) (address : Addr) :
    Except Err (Storage × Nat) :=
  if (lookupA st.balances address).isSome then
    match lookupA st.balances address with
    | none => Except.error Err.MissingKey
    | some acc => Except.ok (st, acc.balance)
  else Except.ok (st, 0)

/-- `FA12_core.getAllowance` as an entry point: branch on `contains owner`,
then `approvals.get(spender, 0)`. -/
def getAllowanceEp (st : Storage) (owner spender : Addr) :
    Except Err (Storage × Nat) :=
  if (lookupA st.balances owner).isSome then
    match lookupA st.balances owner with
    | none => Except.error Err.MissingKey
    | some acc => Except.ok (st, (lookupA acc.approvals spender).getD 0)
  else Except.ok (st, 0)

/-- `FA12_core.getTotalSupply` as an entry point. -/
def getTotalSupplyEp (st : Storage) : Except Err (Storage × Nat) :=
  Except.ok (st, st.totalSupply)

/-- `FA12_administrator.getAdministrator` as an entry point. -/
def getAdministratorEp (st : Storage) : Except Err (Storage × Addr) :=
  Except.ok (st, st.administrator)

/-- One mutating call on the contract, with its (implicit) caller first. -/
inductive Op where
  | transferOp (sender from_ to_ : Addr) (value : Nat)
  | approveOp (sender spender : Addr) (value : Nat)
  | mintOp (sender address : Addr) (value : Nat)
  | burnOp (sender address : Addr) (value : Nat)
  | setAdministratorOp (sender newAdmin : Addr)
  | setPauseOp (sender : Addr) (flag : Bool)
deriving DecidableEq, Repr

def applyOp (st : Storage) : Op → Except Err Storage
  | Op.transferOp sender from_ to_ value => transfer st sender from_ to_ value
  | Op.approveOp sender spender value => approve st sender spender value
  | Op.mintOp sender address value => mint st sender address value
  | Op.burnOp sender address value => burn st sender address value
  | Op.setAdministratorOp sender newAdmin => setAdministrator st sender newAdmin
  | Op.setPauseOp sender flag => setPause st sender flag

/-- A failed call is rolled back: the chain keeps the pre-state. -/
def runOp (st : Storage) (op : Op) : Storage :=
  match applyOp st op with
  | Except.ok st2 => st2
  | Except.error _ => st

def run (st : Storage) (ops : List Op) : Storage :=
  ops.foldl runOp st

/-- Deployment state: empty big-map, `totalSupply = 0`, `paused = False`,
the designated administrator. -/
def initialState (admin : Addr) : Storage :=
  { balances := [], totalSupply := 0, administrator := admin, paused := false }

/-- Sum of all stored balances. -/
def sumBalances (m : List (Addr × Account)) : Nat :=
  (m.map (fun p => p.2.balance)).sum

/-- The account record stored for `a` after `addAddressIfNecessary`. -/
def ensured (m : List (Addr × Account)) (a : Addr) : Account :=
  match lookupA m a with
  | some acc => acc
  | none => { balance := 0, approvals := [] }

theorem lookupA_insertA_self {β : Type} (m : List (Addr × β)) (k : Addr) (v : β) :
    lookupA (insertA m k v) k = some v := by
  induction m with
  | nil => simp [insertA, lookupA]
  | cons p rest ih =>
    obtain ⟨a, w⟩ := p
    by_cases h : a = k
    · simp [insertA, lookupA, h]
    · simp [insertA, lookupA, h, ih]

theorem lookupA_insertA_ne {β : Type} (m : List (Addr × β)) (k k2 : Addr) (v : β)
    (h : k2 ≠ k) : lookupA (insertA m k v) k2 = lookupA m k2 := by
  have hk : ¬(k = k2) := fun hc => h hc.symm
  induction m with
  | nil => simp [insertA, lookupA, hk]
  | cons p rest ih =>
    obtain ⟨a, w⟩ := p
    by_cases ha : a = k
    · subst ha
      simp [insertA, lookupA, hk]
    · simp only [insertA, if_neg ha, lookupA]
      by_cases hb : a = k2
      · simp [hb]
      · simp [hb, ih]

theorem sumBalances_cons (k : Addr) (v : Account) (rest : List (Addr × Account)) :
    sumBalances ((k, v) :: rest) = v.balance + sumBalances rest := by
  simp [sumBalances]

theorem sumBalances_insertA_some (m : List (Addr × Account)) (k : Addr)
    (a v : Account) (h : lookupA m k = some a) :
    sumBalances (insertA m k v) + a.balance = sumBalances m + v.balance := by
  induction m with
  | nil => simp [lookupA] at h
  | cons p rest ih =>
    obtain ⟨b, w⟩ := p
    by_cases hb : b = k
    · rw [lookupA, if_pos hb] at h
      injection h with h2
      subst h2
      simp only [insertA, if_pos hb, sumBalances_cons]
      omega
    · rw [lookupA, if_neg hb] at h
      have := ih h
      simp only [insertA, if_neg hb, sumBalances_cons]
      omega

theorem sumBalances_insertA_none (m : List (Addr × Account)) (k : Addr)
    (v : Account) (h : lookupA m k = none) :
    sumBalances (insertA m k v) = sumBalances m + v.balance := by
  induction m with
  | nil => simp [insertA, sumBalances]
  | cons p rest ih =>
    obtain ⟨b, w⟩ := p
    by_cases hb : b = k
    · rw [lookupA, if_pos hb] at h
      cases h
    · rw [lookupA, if_neg hb] at h
      simp only [insertA, if_neg hb, sumBalances_cons]
      rw [ih h]
      omega

theorem balance_le_sumBalances (m : List (Addr × Account)) (k : Addr)
    (a : Account) (h : lookupA m k = some a) : a.balance ≤ sumBalances m := by
  induction m with
  | nil => simp [lookupA] at h
  | cons p rest ih =>
    obtain ⟨b, w⟩ := p
    by_cases hb : b = k
    · rw [lookupA, if_pos hb] at h
      injection h with h2
      subst h2
      rw [sumBalances_cons]
      omega
    · rw [lookupA, if_neg hb] at h
      have := ih h
      rw [sumBalances_cons]
      omega

theorem addAddress_of_some (m : List (Addr × Account)) (a : Addr)
    (acc : Account) (h : lookupA m a = some acc) :
    addAddressIfNecessary m a = m := by
  simp [addAddressIfNecessary, h]

theorem addAddress_of_none (m : List (Addr × Account)) (a : Addr)
    (h : lookupA m a = none) :
    addAddressIfNecessary m a = insertA m a { balance := 0, approvals := [] } := by
  simp [addAddressIfNecessary, h]

theorem lookupA_addAddress_self (m : List (Addr × Account)) (a : Addr) :
    lookupA (addAddressIfNecessary m a) a = some (ensured m a) := by
  cases h : lookupA m a with
  | some acc => rw [addAddress_of_some m a acc h, ensured, h]
  | none =>
    rw [addAddress_of_none m a h, ensured, h, lookupA_insertA_self]

theorem lookupA_addAddress_ne (m : List (Addr × Account)) (a k : Addr)
    (h : k ≠ a) : lookupA (addAddressIfNecessary m a) k = lookupA m k := by
  cases hm : lookupA m a with
  | some acc => rw [addAddress_of_some m a acc hm]
  | none => rw [addAddress_of_none m a hm, lookupA_insertA_ne _ _ _ _ h]

theorem sumBalances_addAddress (m : List (Addr × Account)) (a : Addr) :
    sumBalances (addAddressIfNecessary m a) = sumBalances m := by
  cases hm : lookupA m a with
  | some acc => rw [addAddress_of_some m a acc hm]
  | none =>
    rw [addAddress_of_none m a hm, sumBalances_insertA_none m a _ hm]
    rfl

theorem asNat_sub_ok (a v : Nat) (h : v ≤ a) :
    asNat ((a : Int) - (v : Int)) = Except.ok (a - v) := by
  have h2 : ((a : Int) - (v : Int)).toNat = a - v := by omega
  rw [asNat, if_neg (by omega : ¬((a : Int) - (v : Int) < 0)), h2]

theorem ensured_balance (m : List (Addr × Account)) (a : Addr) :
    (ensured m a).balance = (match lookupA m a with
      | some acc => acc.balance
      | none => 0) := by
  rw [ensured]
  cases lookupA m a <;> rfl

theorem lookupA_addAddress_of_some (m : List (Addr × Account)) (a k : Addr)
    (v : Account) (h : lookupA m k = some v) :
    lookupA (addAddressIfNecessary m a) k = some v := by
  by_cases hk : k = a
  · subst hk
    rw [lookupA_addAddress_self, ensured, h]
  · rw [lookupA_addAddress_ne m a k hk, h]

theorem getBalance_eq_ensured (st : Storage) (a : Addr) :
    getBalance st a = (ensured st.balances a).balance := by
  rw [getBalance, ensured]
  cases lookupA st.balances a <;> rfl

theorem getAllowance_eq_ensured (st : Storage) (o s : Addr) :
    getAllowance st o s = (lookupA (ensured st.balances o).approvals s).getD 0 := by
  rw [getAllowance, ensured]
  cases lookupA st.balances o with
  | some acc => rfl
  | none => simp [lookupA]

/-- The approval entry of `(owner, spender)` as the contract stores it:
`none` when the owner account or the spender entry is absent. -/
def allowanceEntry (st : Storage) (owner spender : Addr) : Option Nat :=
  match lookupA st.balances owner with
  | none => none
  | some acc => lookupA acc.approvals spender

theorem allowanceEntry_some_elim (st : Storage) (o s : Addr) (w : Nat)
    (h : allowanceEntry st o s = some w) :
    ∃ acc, lookupA st.balances o = some acc ∧ lookupA acc.approvals s = some w := by
  rw [allowanceEntry] at h
  cases hacc : lookupA st.balances o with
  | none => rw [hacc] at h; cases h
  | some acc => rw [hacc] at h; exact ⟨acc, rfl, h⟩

theorem transferAuthCheck_ok_iff (st : Storage) (sender from_ : Addr) (value : Nat) :
    transferAuthCheck st sender from_ value = Except.ok () ↔
      (sender = st.administrator ∨ (st.paused = false ∧ (from_ = sender ∨
        ∃ w, allowanceEntry st from_ sender = some w ∧ value ≤ w))) := by
  rw [transferAuthCheck, allowanceEntry]
  by_cases h1 : sender = st.administrator
  · simp [h1]
  · rw [if_neg h1]
    by_cases hp : st.paused = true
    · simp [h1, hp]
    · rw [if_neg hp]
      by_cases h2 : from_ = sender
      · simp [h1, h2, show st.paused = false by simpa using hp]
      · rw [if_neg h2]
        cases hacc : lookupA st.balances from_ with
        | none => simp [h1, h2, hp, hacc]
        | some acc =>
          cases hw : lookupA acc.approvals sender with
          | none => simp [h1, h2, hp, hw]
          | some w =>
            by_cases hv : value ≤ w
            · simp [h1, h2, show st.paused = false by simpa using hp, hw, hv]
            · simp [h1, h2, hp, hw, hv]

theorem transferAuthCheck_missing_iff (st : Storage) (sender from_ : Addr)
    (value : Nat) :
    transferAuthCheck st sender from_ value = Except.error Err.MissingKey ↔
      (sender ≠ st.administrator ∧ st.paused = false ∧ from_ ≠ sender ∧
        allowanceEntry st from_ sender = none) := by
  rw [transferAuthCheck, allowanceEntry]
  by_cases h1 : sender = st.administrator
  · simp [h1]
  · rw [if_neg h1]
    by_cases hp : st.paused = true
    · simp [h1, hp]
    · rw [if_neg hp]
      by_cases h2 : from_ = sender
      · simp [h1, h2, hp]
      · rw [if_neg h2]
        cases hacc : lookupA st.balances from_ with
        | none => simp [h1, h2, show st.paused = false by simpa using hp, hacc]
        | some acc =>
          cases hw : lookupA acc.approvals sender with
          | none => simp [h1, h2, show st.paused = false by simpa using hp, hw]
          | some w =>
            by_cases hv : value ≤ w <;> simp [h1, h2, hp, hw, hv]

theorem transferAuthCheck_notAllowed_iff (st : Storage) (sender from_ : Addr)
    (value : Nat) :
    transferAuthCheck st sender from_ value = Except.error Err.NotAllowed ↔
      (sender ≠ st.administrator ∧ (st.paused = true ∨ (from_ ≠ sender ∧
        ∃ w, allowanceEntry st from_ sender = some w ∧ w < value))) := by
  rw [transferAuthCheck, allowanceEntry]
  by_cases h1 : sender = st.administrator
  · simp [h1]
  · rw [if_neg h1]
    by_cases hp : st.paused = true
    · simp [h1, hp]
    · rw [if_neg hp]
      by_cases h2 : from_ = sender
      · simp [h1, h2, hp]
      · rw [if_neg h2]
        cases hacc : lookupA st.balances from_ with
        | none => simp [h1, h2, hp, hacc]
        | some acc =>
          cases hw : lookupA acc.approvals sender with
          | none => simp [h1, h2, hp, hw]
          | some w =>
            by_cases hv : value ≤ w
            · have hnl : ¬(w < value) := by omega
              simp [h1, h2, hp, hw, hnl]
            · have hl : w < value := by omega
              simp [h1, h2, hp, hw, hl, show st.paused = false by simpa using hp]

theorem transferAuthCheck_err_range (st : Storage) (sender from_ : Addr)
    (value : Nat) (e : Err)
    (h : transferAuthCheck st sender from_ value = Except.error e) :
    e = Err.MissingKey ∨ e = Err.NotAllowed := by
  rw [transferAuthCheck] at h
  split at h
  · cases h
  split at h
  · injection h with h
    exact Or.inr h.symm
  split at h
  · cases h
  split at h
  · injection h with h
    exact Or.inl h.symm
  split at h
  · injection h with h
    exact Or.inl h.symm
  split at h
  · cases h
  · injection h with h
    exact Or.inr h.symm

/-- Master lemma for a `transfer` whose authorization check passed and whose
source balance suffices: the call succeeds and has the exact balance,
allowance and supply effects of the source code. -/

theorem transfer_ok_spec (st : Storage) (sender from_ to_ : Addr) (value : Nat)
    (hauth : transferAuthCheck st sender from_ value = Except.ok ())
    (hbal : value ≤ getBalance st from_) :
    ∃ st2, transfer st sender from_ to_ value = Except.ok st2 ∧
      st2.administrator = st.administrator ∧
      st2.paused = st.paused ∧
      st2.totalSupply = st.totalSupply ∧
      sumBalances st2.balances = sumBalances st.balances ∧
      (from_ = to_ → getBalance st2 from_ = getBalance st from_) ∧
      (from_ ≠ to_ → getBalance st2 from_ + value = getBalance st from_ ∧
        getBalance st2 to_ = getBalance st to_ + value) ∧
      ((from_ ≠ sender ∧ sender ≠ st.administrator) →
        getAllowance st2 from_ sender + value = getAllowance st from_ sender) ∧
      (¬(from_ ≠ sender ∧ sender ≠ st.administrator) →
        getAllowance st2 from_ sender = getAllowance st from_ sender) := by
  have hleF : value ≤ (ensured st.balances from_).balance := by
    rw [← getBalance_eq_ensured]; exact hbal
  have hltF : ¬((ensured st.balances from_).balance < value) := by omega
  unfold transfer
  rw [hauth]
  dsimp only
  rw [lookupA_addAddress_of_some _ to_ from_ _ (lookupA_addAddress_self st.balances from_)]
  dsimp only
  rw [if_neg hltF]
  rw [asNat_sub_ok _ _ hleF]
  dsimp only
  by_cases hft : to_ = from_
  · subst to_
    rw [lookupA_insertA_self]
    dsimp only
    by_cases hcond : from_ ≠ sender ∧ sender ≠ st.administrator
    · rw [if_pos hcond]
      rw [lookupA_insertA_self]
      dsimp only
      obtain ⟨w, hwE, hwle⟩ : ∃ w, allowanceEntry st from_ sender = some w ∧ value ≤ w := by
        rcases (transferAuthCheck_ok_iff st sender from_ value).mp hauth with h | ⟨hp, h | h⟩
        · exact absurd h hcond.2
        · exact absurd h hcond.1
        · exact h
      obtain ⟨acc0, hacc0, hw0⟩ := allowanceEntry_some_elim st from_ sender w hwE
      have hE : ensured st.balances from_ = acc0 := by rw [ensured, hacc0]
      rw [hE] at hleF
      rw [hE]
      rw [hw0]
      dsimp only
      rw [asNat_sub_ok _ _ hwle]
      dsimp only
      refine ⟨_, rfl, rfl, rfl, rfl, ?_, ?_, ?_, ?_, ?_⟩
      · -- sum of balances preserved
        dsimp only
        have hb0f : lookupA (addAddressIfNecessary (addAddressIfNecessary st.balances from_) from_) from_ = some acc0 := by
          rw [← hE]
          exact lookupA_addAddress_of_some _ from_ from_ _ (lookupA_addAddress_self st.balances from_)
        set m2 := addAddressIfNecessary (addAddressIfNecessary st.balances from_) from_ with hm2
        set A1 : Account := ⟨acc0.balance - value, acc0.approvals⟩ with hA1
        set b1 := insertA m2 from_ A1 with hb1
        set A2 : Account := ⟨acc0.balance - value + value, acc0.approvals⟩ with hA2
        set b2 := insertA b1 from_ A2 with hb2
        set A3 : Account := ⟨acc0.balance - value + value, insertA acc0.approvals sender (w - value)⟩ with hA3
        have s0 : sumBalances m2 = sumBalances st.balances := by
          rw [hm2, sumBalances_addAddress, sumBalances_addAddress]
        have s1 : sumBalances b1 + acc0.balance = sumBalances m2 + A1.balance :=
          sumBalances_insertA_some m2 from_ acc0 A1 hb0f
        have s2 : sumBalances b2 + A1.balance = sumBalances b1 + A2.balance :=
          sumBalances_insertA_some b1 from_ A1 A2 (lookupA_insertA_self m2 from_ A1)
        have s3 : sumBalances (insertA b2 from_ A3) + A2.balance = sumBalances b2 + A3.balance :=
          sumBalances_insertA_some b2 from_ A2 A3 (lookupA_insertA_self b1 from_ A2)
        have e1 : A1.balance = acc0.balance - value := rfl
        have e2 : A2.balance = acc0.balance - value + value := rfl
        have e3 : A3.balance = acc0.balance - value + value := rfl
        omega
      · -- self-transfer balance unchanged
        intro h
        rw [getBalance_eq_ensured st from_, hE]
        simp only [getBalance, lookupA_insertA_self]
        omega
      · intro h
        exact absurd rfl h
      · -- allowance decremented
        intro h
        rw [getAllowance_eq_ensured st from_ sender, hE, hw0]
        simp only [getAllowance, lookupA_insertA_self, Option.getD_some]
        omega
      · intro h
        exact absurd hcond h
    · rw [if_neg hcond]
      refine ⟨_, rfl, rfl, rfl, rfl, ?_, ?_, ?_, ?_, ?_⟩
      · -- sum of balances preserved
        dsimp only
        have hb0f : lookupA (addAddressIfNecessary (addAddressIfNecessary st.balances from_) from_) from_ = some (ensured st.balances from_) :=
          lookupA_addAddress_of_some _ from_ from_ _ (lookupA_addAddress_self st.balances from_)
        set E := ensured st.balances from_ with hEdef
        set m2 := addAddressIfNecessary (addAddressIfNecessary st.balances from_) from_ with hm2
        set A1 : Account := ⟨E.balance - value, E.approvals⟩ with hA1
        set b1 := insertA m2 from_ A1 with hb1
        set A2 : Account := ⟨E.balance - value + value, E.approvals⟩ with hA2
        have s0 : sumBalances m2 = sumBalances st.balances := by
          rw [hm2, sumBalances_addAddress, sumBalances_addAddress]
        have s1 : sumBalances b1 + E.balance = sumBalances m2 + A1.balance :=
          sumBalances_insertA_some m2 from_ E A1 hb0f
        have s2 : sumBalances (insertA b1 from_ A2) + A1.balance = sumBalances b1 + A2.balance :=
          sumBalances_insertA_some b1 from_ A1 A2 (lookupA_insertA_self m2 from_ A1)
        have e1 : A1.balance = E.balance - value := rfl
        have e2 : A2.balance = E.balance - value + value := rfl
        omega
      · -- self-transfer balance unchanged
        intro h
        rw [getBalance_eq_ensured st from_]
        simp only [getBalance, lookupA_insertA_self]
        have hleE : value ≤ (ensured st.balances from_).balance := hleF
        omega
      · intro h
        exact absurd rfl h
      · intro h
        exact absurd h hcond
      · -- allowance untouched
        intro h
        rw [getAllowance_eq_ensured st from_ sender]
        simp only [getAllowance, lookupA_insertA_self]
  · -- to_ and from_ are distinct accounts
    rw [lookupA_insertA_ne _ _ _ _ hft, lookupA_addAddress_self]
    have hTeq : ensured (addAddressIfNecessary st.balances from_) to_ = ensured st.balances to_ := by
      unfold ensured
      rw [lookupA_addAddress_ne st.balances from_ to_ hft]
    rw [hTeq]
    dsimp only
    have hfnt : from_ ≠ to_ := fun hc => hft hc.symm
    by_cases hcond : from_ ≠ sender ∧ sender ≠ st.administrator
    · rw [if_pos hcond]
      rw [lookupA_insertA_ne _ _ _ _ hfnt, lookupA_insertA_self]
      dsimp only
      obtain ⟨w, hwE, hwle⟩ : ∃ w, allowanceEntry st from_ sender = some w ∧ value ≤ w := by
        rcases (transferAuthCheck_ok_iff st sender from_ value).mp hauth with h | ⟨hp, h | h⟩
        · exact absurd h hcond.2
        · exact absurd h hcond.1
        · exact h
      obtain ⟨acc0, hacc0, hw0⟩ := allowanceEntry_some_elim st from_ sender w hwE
      have hE : ensured st.balances from_ = acc0 := by rw [ensured, hacc0]
      rw [hE] at hleF
      rw [hE]
      rw [hw0]
      dsimp only
      rw [asNat_sub_ok _ _ hwle]
      dsimp only
      refine ⟨_, rfl, rfl, rfl, rfl, ?_, ?_, ?_, ?_, ?_⟩
      · -- sum of balances preserved
        dsimp only
        have hb0f : lookupA (addAddressIfNecessary (addAddressIfNecessary st.balances from_) to_) from_ = some acc0 := by
          rw [← hE]
          exact lookupA_addAddress_of_some _ to_ from_ _ (lookupA_addAddress_self st.balances from_)
        set T := ensured st.balances to_ with hTdef
        set m2 := addAddressIfNecessary (addAddressIfNecessary st.balances from_) to_ with hm2
        set A1 : Account := ⟨acc0.balance - value, acc0.approvals⟩ with hA1
        set b1 := insertA m2 from_ A1 with hb1
        set A2 : Account := ⟨T.balance + value, T.approvals⟩ with hA2
        set b2 := insertA b1 to_ A2 with hb2
        set A3 : Account := ⟨acc0.balance - value, insertA acc0.approvals sender (w - value)⟩ with hA3
        have hb1t : lookupA b1 to_ = some T := by
          rw [hb1, lookupA_insertA_ne _ _ _ _ hft, hm2, lookupA_addAddress_self, hTeq]
        have hb2f : lookupA b2 from_ = some A1 := by
          rw [hb2, lookupA_insertA_ne _ _ _ _ hfnt, hb1, lookupA_insertA_self]
        have s0 : sumBalances m2 = sumBalances st.balances := by
          rw [hm2, sumBalances_addAddress, sumBalances_addAddress]
        have s1 : sumBalances b1 + acc0.balance = sumBalances m2 + A1.balance :=
          sumBalances_insertA_some m2 from_ acc0 A1 hb0f
        have s2 : sumBalances b2 + T.balance = sumBalances b1 + A2.balance :=
          sumBalances_insertA_some b1 to_ T A2 hb1t
        have s3 : sumBalances (insertA b2 from_ A3) + A1.balance = sumBalances b2 + A3.balance :=
          sumBalances_insertA_some b2 from_ A1 A3 hb2f
        have e1 : A1.balance = acc0.balance - value := rfl
        have e2 : A2.balance = T.balance + value := rfl
        have e3 : A3.balance = acc0.balance - value := rfl
        omega
      · intro h
        exact absurd h.symm hft
      · intro h
        constructor
        · rw [getBalance_eq_ensured st from_, hE]
          simp only [getBalance, lookupA_insertA_self]
          omega
        · rw [getBalance_eq_ensured st to_]
          simp only [getBalance]
          rw [lookupA_insertA_ne _ _ _ _ hft, lookupA_insertA_self]
      · -- allowance decremented
        intro h
        rw [getAllowance_eq_ensured st from_ sender, hE, hw0]
        simp only [getAllowance, lookupA_insertA_self, Option.getD_some]
        omega
      · intro h
        exact absurd hcond h
    · rw [if_neg hcond]
      refine ⟨_, rfl, rfl, rfl, rfl, ?_, ?_, ?_, ?_, ?_⟩
      · -- sum of balances preserved
        dsimp only
        have hb0f : lookupA (addAddressIfNecessary (addAddressIfNecessary st.balances from_) to_) from_ = some (ensured st.balances from_) :=
          lookupA_addAddress_of_some _ to_ from_ _ (lookupA_addAddress_self st.balances from_)
        set E := ensured st.balances from_ with hEdef
        set T := ensured st.balances to_ with hTdef
        set m2 := addAddressIfNecessary (addAddressIfNecessary st.balances from_) to_ with hm2
        set A1 : Account := ⟨E.balance - value, E.approvals⟩ with hA1
        set b1 := insertA m2 from_ A1 with hb1
        set A2 : Account := ⟨T.balance + value, T.approvals⟩ with hA2
        have hb1t : lookupA b1 to_ = some T := by
          rw [hb1, lookupA_insertA_ne _ _ _ _ hft, hm2, lookupA_addAddress_self, hTeq]
        have s0 : sumBalances m2 = sumBalances st.balances := by
          rw [hm2, sumBalances_addAddress, sumBalances_addAddress]
        have s1 : sumBalances b1 + E.balance = sumBalances m2 + A1.balance :=
          sumBalances_insertA_some m2 from_ E A1 hb0f
        have s2 : sumBalances (insertA b1 to_ A2) + T.balance = sumBalances b1 + A2.balance :=
          sumBalances_insertA_some b1 to_ T A2 hb1t
        have e1 : A1.balance = E.balance - value := rfl
        have e2 : A2.balance = T.balance + value := rfl
        omega
      · intro h
        exact absurd h.symm hft
      · intro h
        constructor
        · rw [getBalance_eq_ensured st from_]
          simp only [getBalance]
          rw [lookupA_insertA_ne _ _ _ _ hfnt, lookupA_insertA_self]
          dsimp only
          have hleE : value ≤ (ensured st.balances from_).balance := hleF
          omega
        · rw [getBalance_eq_ensured st to_]
          simp only [getBalance]
          rw [lookupA_insertA_self]
      · intro h
        exact absurd h hcond
      · -- allowance untouched
        intro h
        rw [getAllowance_eq_ensured st from_ sender]
        simp only [getAllowance]
        rw [lookupA_insertA_ne _ _ _ _ hfnt, lookupA_insertA_self]


theorem transfer_auth_error (st : Storage) (sender from_ to_ : Addr) (value : Nat)
    (e : Err) (h : transferAuthCheck st sender from_ value = Except.error e) :
    transfer st sender from_ to_ value = Except.error e := by
  unfold transfer
  rw [h]

theorem transfer_insufficient (st : Storage) (sender from_ to_ : Addr) (value : Nat)
    (hauth : transferAuthCheck st sender from_ value = Except.ok ())
    (hbal : getBalance st from_ < value) :
    transfer st sender from_ to_ value = Except.error Err.InsufficientBalance := by
  have hlt : (ensured st.balances from_).balance < value := by
    rw [← getBalance_eq_ensured]; exact hbal
  unfold transfer
  rw [hauth]
  dsimp only
  rw [lookupA_addAddress_of_some _ to_ from_ _ (lookupA_addAddress_self st.balances from_)]
  dsimp only
  rw [if_pos hlt]

theorem transfer_no_underflow (st : Storage) (sender from_ to_ : Addr) (value : Nat) :
    transfer st sender from_ to_ value ≠ Except.error Err.NatUnderflow := by
  cases hauth : transferAuthCheck st sender from_ value with
  | error e =>
    rw [transfer_auth_error st sender from_ to_ value e hauth]
    intro hc
    injection hc with hc
    rcases transferAuthCheck_err_range st sender from_ value e hauth with h | h <;>
      simp [h] at hc
  | ok u =>
    cases u
    by_cases hbal : value ≤ getBalance st from_
    · obtain ⟨st2, heq, -⟩ := transfer_ok_spec st sender from_ to_ value hauth hbal
      rw [heq]
      intro hc
      cases hc
    · rw [transfer_insufficient st sender from_ to_ value hauth (by omega)]
      intro hc
      injection hc with hc
      cases hc

theorem asNat_ok_elim (i : Int) (n : Nat) (h : asNat i = Except.ok n) :
    0 ≤ i ∧ (n : Int) = i := by
  rw [asNat] at h
  split at h
  · cases h
  · injection h with h
    subst h
    constructor
    · omega
    · omega

/-- Anatomy of a successful `burn`. -/
theorem burn_ok_elim (st : Storage) (sender address : Addr) (value : Nat)
    (st2 : Storage) (h : burn st sender address value = Except.ok st2) :
    sender = st.administrator ∧
    ∃ acc, lookupA st.balances address = some acc ∧ value ≤ acc.balance ∧
      value ≤ st.totalSupply ∧
      st2 = { st with
        balances := insertA st.balances address ⟨acc.balance - value, acc.approvals⟩,
        totalSupply := st.totalSupply - value } := by
  unfold burn at h
  split at h
  case isFalse => cases h
  case isTrue hadm =>
  refine ⟨hadm, ?_⟩
  cases hacc : lookupA st.balances address with
  | none => rw [hacc] at h; cases h
  | some acc =>
    rw [hacc] at h
    dsimp only at h
    split at h
    · cases h
    case isFalse hbal =>
    have hble : value ≤ acc.balance := by omega
    rw [asNat_sub_ok _ _ hble] at h
    dsimp only at h
    cases hsup : asNat ((st.totalSupply : Int) - (value : Int)) with
    | error e => rw [hsup] at h; cases h
    | ok newSupply =>
      rw [hsup] at h
      dsimp only at h
      obtain ⟨h0, h1⟩ := asNat_ok_elim _ _ hsup
      have hsle : value ≤ st.totalSupply := by omega
      have hns : newSupply = st.totalSupply - value := by omega
      subst hns
      injection h with h
      exact ⟨acc, rfl, hble, hsle, h.symm⟩



theorem burn_not_admin (st : Storage) (sender address : Addr) (value : Nat)
    (h : sender ≠ st.administrator) :
    burn st sender address value = Except.error Err.NotAdmin := by
  unfold burn
  rw [if_neg h]

theorem burn_missing (st : Storage) (sender address : Addr) (value : Nat)
    (hadm : sender = st.administrator)
    (h : lookupA st.balances address = none) :
    burn st sender address value = Except.error Err.MissingKey := by
  unfold burn
  rw [if_pos hadm, h]

theorem burn_insufficient (st : Storage) (sender address : Addr) (value : Nat)
    (acc : Account) (hadm : sender = st.administrator)
    (hacc : lookupA st.balances address = some acc)
    (hlt : acc.balance < value) :
    burn st sender address value = Except.error Err.InsufficientBalance := by
  unfold burn
  rw [if_pos hadm, hacc]
  dsimp only
  rw [if_pos hlt]

theorem burn_success (st : Storage) (sender address : Addr) (value : Nat)
    (acc : Account) (hadm : sender = st.administrator)
    (hacc : lookupA st.balances address = some acc)
    (hble : value ≤ acc.balance) (hsle : value ≤ st.totalSupply) :
    burn st sender address value = Except.ok { st with
      balances := insertA st.balances address ⟨acc.balance - value, acc.approvals⟩,
      totalSupply := st.totalSupply - value } := by
  unfold burn
  rw [if_pos hadm, hacc]
  dsimp only
  rw [if_neg (by omega : ¬(acc.balance < value))]
  rw [asNat_sub_ok _ _ hble]
  dsimp only
  rw [asNat_sub_ok _ _ hsle]

/-- A `mint` call always succeeds, for any caller, and credits both the
target balance and the total supply. -/
theorem mint_spec (st : Storage) (sender address : Addr) (value : Nat) :
    ∃ st2, mint st sender address value = Except.ok st2 ∧
      st2.administrator = st.administrator ∧
      st2.paused = st.paused ∧
      st2.totalSupply = st.totalSupply + value ∧
      sumBalances st2.balances = sumBalances st.balances + value ∧
      getBalance st2 address = getBalance st address + value := by
  unfold mint
  dsimp only
  rw [lookupA_addAddress_self]
  dsimp only
  refine ⟨_, rfl, rfl, rfl, rfl, ?_, ?_⟩
  · dsimp only
    have s1 : sumBalances (insertA (addAddressIfNecessary st.balances address) address
        ⟨(ensured st.balances address).balance + value, (ensured st.balances address).approvals⟩)
        + (ensured st.balances address).balance
        = sumBalances (addAddressIfNecessary st.balances address)
          + ((ensured st.balances address).balance + value) :=
      sumBalances_insertA_some _ address _ _ (lookupA_addAddress_self st.balances address)
    have s0 : sumBalances (addAddressIfNecessary st.balances address) = sumBalances st.balances :=
      sumBalances_addAddress st.balances address
    omega
  · rw [getBalance_eq_ensured st address]
    simp only [getBalance, lookupA_insertA_self]

theorem approve_paused (st : Storage) (sender spender : Addr) (value : Nat)
    (h : st.paused = true) :
    approve st sender spender value = Except.error Err.Paused := by
  unfold approve
  dsimp only
  rw [if_pos h]

theorem approve_change_rejected (st : Storage) (sender spender : Addr) (value : Nat)
    (hp : st.paused = false)
    (h0 : getAllowance st sender spender ≠ 0) (hv : value ≠ 0) :
    approve st sender spender value = Except.error Err.UnsafeAllowanceChange := by
  rw [getAllowance_eq_ensured] at h0
  unfold approve
  dsimp only
  rw [if_neg (by rw [hp]; exact Bool.false_ne_true)]
  rw [lookupA_addAddress_self]
  dsimp only
  rw [if_neg (by tauto)]

theorem approve_success (st : Storage) (sender spender : Addr) (value : Nat)
    (hp : st.paused = false)
    (hok : getAllowance st sender spender = 0 ∨ value = 0) :
    ∃ st2, approve st sender spender value = Except.ok st2 ∧
      st2.administrator = st.administrator ∧
      st2.paused = st.paused ∧
      st2.totalSupply = st.totalSupply ∧
      sumBalances st2.balances = sumBalances st.balances ∧
      getAllowance st2 sender spender = value := by
  rw [getAllowance_eq_ensured] at hok
  unfold approve
  dsimp only
  rw [if_neg (by rw [hp]; exact Bool.false_ne_true)]
  rw [lookupA_addAddress_self]
  dsimp only
  rw [if_pos hok]
  refine ⟨_, rfl, rfl, rfl, rfl, ?_, ?_⟩
  · dsimp only
    have s1 : sumBalances (insertA (addAddressIfNecessary st.balances sender) sender
        ⟨(ensured st.balances sender).balance,
          insertA (ensured st.balances sender).approvals spender value⟩)
        + (ensured st.balances sender).balance
        = sumBalances (addAddressIfNecessary st.balances sender)
          + (ensured st.balances sender).balance :=
      sumBalances_insertA_some _ sender _ _ (lookupA_addAddress_self st.balances sender)
    have s0 : sumBalances (addAddressIfNecessary st.balances sender) = sumBalances st.balances :=
      sumBalances_addAddress st.balances sender
    omega
  · simp only [getAllowance, lookupA_insertA_self, Option.getD_some]

theorem setAdministrator_ok (st : Storage) (sender newAdmin : Addr)
    (h : sender = st.administrator) :
    setAdministrator st sender newAdmin =
      Except.ok { st with administrator := newAdmin } := by
  unfold setAdministrator
  rw [if_pos h]

theorem setAdministrator_not_admin (st : Storage) (sender newAdmin : Addr)
    (h : sender ≠ st.administrator) :
    setAdministrator st sender newAdmin = Except.error Err.NotAdmin := by
  unfold setAdministrator
  rw [if_neg h]

theorem setPause_ok (st : Storage) (sender : Addr) (flag : Bool)
    (h : sender = st.administrator) :
    setPause st sender flag = Except.ok { st with paused := flag } := by
  unfold setPause
  rw [if_pos h]

theorem setPause_not_admin (st : Storage) (sender : Addr) (flag : Bool)
    (h : sender ≠ st.administrator) :
    setPause st sender flag = Except.error Err.NotAdmin := by
  unfold setPause
  rw [if_neg h]



theorem transfer_ok_preserves (st : Storage) (sender from_ to_ : Addr) (value : Nat)
    (st2 : Storage) (h : transfer st sender from_ to_ value = Except.ok st2) :
    st2.totalSupply = st.totalSupply ∧
    sumBalances st2.balances = sumBalances st.balances := by
  cases hauth : transferAuthCheck st sender from_ value with
  | error e =>
    rw [transfer_auth_error st sender from_ to_ value e hauth] at h
    cases h
  | ok u =>
    cases u
    by_cases hbal : value ≤ getBalance st from_
    · obtain ⟨st3, heq, _, _, hts, hsum, -⟩ :=
        transfer_ok_spec st sender from_ to_ value hauth hbal
      rw [heq] at h
      injection h with h
      subst h
      exact ⟨hts, hsum⟩
    · rw [transfer_insufficient st sender from_ to_ value hauth (by omega)] at h
      cases h

theorem approve_ok_preserves (st : Storage) (sender spender : Addr) (value : Nat)
    (st2 : Storage) (h : approve st sender spender value = Except.ok st2) :
    st2.totalSupply = st.totalSupply ∧
    sumBalances st2.balances = sumBalances st.balances := by
  cases hp : st.paused with
  | true =>
    rw [approve_paused st sender spender value hp] at h
    cases h
  | false =>
    by_cases hc : getAllowance st sender spender = 0 ∨ value = 0
    · obtain ⟨st3, heq, _, _, hts, hsum, -⟩ := approve_success st sender spender value hp hc
      rw [heq] at h
      injection h with h
      subst h
      exact ⟨hts, hsum⟩
    · push_neg at hc
      rw [approve_change_rejected st sender spender value hp hc.1 hc.2] at h
      cases h

theorem mint_ok_preserves (st : Storage) (sender address : Addr) (value : Nat)
    (st2 : Storage) (h : mint st sender address value = Except.ok st2) :
    st2.totalSupply = st.totalSupply + value ∧
    sumBalances st2.balances = sumBalances st.balances + value := by
  obtain ⟨st3, heq, _, _, hts, hsum, -⟩ := mint_spec st sender address value
  rw [heq] at h
  injection h with h
  subst h
  exact ⟨hts, hsum⟩

theorem burn_ok_preserves (st : Storage) (sender address : Addr) (value : Nat)
    (st2 : Storage) (h : burn st sender address value = Except.ok st2) :
    st2.totalSupply + value = st.totalSupply ∧
    sumBalances st2.balances + value = sumBalances st.balances := by
  obtain ⟨hadm, acc, hacc, hble, hsle, hst2⟩ := burn_ok_elim st sender address value st2 h
  subst hst2
  have s1 : sumBalances (insertA st.balances address ⟨acc.balance - value, acc.approvals⟩)
      + acc.balance = sumBalances st.balances + (acc.balance - value) :=
    sumBalances_insertA_some st.balances address acc _ hacc
  have s2 : acc.balance ≤ sumBalances st.balances :=
    balance_le_sumBalances st.balances address acc hacc
  constructor
  · dsimp only
    omega
  · dsimp only
    omega

theorem setAdministrator_ok_preserves (st : Storage) (sender newAdmin : Addr)
    (st2 : Storage) (h : setAdministrator st sender newAdmin = Except.ok st2) :
    st2.totalSupply = st.totalSupply ∧ st2.balances = st.balances := by
  unfold setAdministrator at h
  split at h
  · injection h with h
    subst h
    exact ⟨rfl, rfl⟩
  · cases h

theorem setPause_ok_preserves (st : Storage) (sender : Addr) (flag : Bool)
    (st2 : Storage) (h : setPause st sender flag = Except.ok st2) :
    st2.totalSupply = st.totalSupply ∧ st2.balances = st.balances := by
  unfold setPause at h
  split at h
  · injection h with h
    subst h
    exact ⟨rfl, rfl⟩
  · cases h

theorem inv_runOp (st : Storage) (op : Op)
    (h : st.totalSupply = sumBalances st.balances) :
    (runOp st op).totalSupply = sumBalances (runOp st op).balances := by
  rw [runOp]
  cases hop : applyOp st op with
  | error e => exact h
  | ok st2 =>
    dsimp only
    cases op with
    | transferOp sender from_ to_ value =>
      simp only [applyOp] at hop
      obtain ⟨h1, h2⟩ := transfer_ok_preserves st sender from_ to_ value st2 hop
      omega
    | approveOp sender spender value =>
      simp only [applyOp] at hop
      obtain ⟨h1, h2⟩ := approve_ok_preserves st sender spender value st2 hop
      omega
    | mintOp sender address value =>
      simp only [applyOp] at hop
      obtain ⟨h1, h2⟩ := mint_ok_preserves st sender address value st2 hop
      omega
    | burnOp sender address value =>
      simp only [applyOp] at hop
      obtain ⟨h1, h2⟩ := burn_ok_preserves st sender address value st2 hop
      omega
    | setAdministratorOp sender newAdmin =>
      simp only [applyOp] at hop
      obtain ⟨h1, h2⟩ := setAdministrator_ok_preserves st sender newAdmin st2 hop
      rw [h1, h2, h]
    | setPauseOp sender flag =>
      simp only [applyOp] at hop
      obtain ⟨h1, h2⟩ := setPause_ok_preserves st sender flag st2 hop
      rw [h1, h2, h]

theorem inv_run (ops : List Op) (st : Storage)
    (h : st.totalSupply = sumBalances st.balances) :
    (run st ops).totalSupply = sumBalances (run st ops).balances := by
  induction ops generalizing st with
  | nil => exact h
  | cons op rest ih =>
    rw [run, List.foldl_cons]
    exact ih (runOp st op) (inv_runOp st op h)



/-- C1: starting from the deployment state, after any sequence of (successful)
`transfer`, `approve`, `mint`, `burn`, `setAdministrator` and `setPause` calls
(failed calls roll back), `totalSupply` equals the sum of all stored
balances. -/
theorem claim_totalSupply_invariant (admin : Addr) (ops : List Op) :
    (run (initialState admin) ops).totalSupply =
      sumBalances (run (initialState admin) ops).balances :=
  inv_run ops (initialState admin) rfl

/-- C2 counterexample: in the assembled contract a caller who is not the
administrator mints successfully — `mint` has no authorization check, so the
claim that non-administrator mints fail is false. -/
theorem claim_mint_restricted_counterexample :
    (1 : Addr) ≠ (initialState 0).administrator ∧
    mint (initialState 0) 1 1 5 =
      Except.ok { balances := [(1, { balance := 5, approvals := [] })],
                  totalSupply := 5, administrator := 0, paused := false } := by
  constructor
  · decide
  · decide

/-- C2 (amended): `mint` in the assembled contract performs no authorization
check: a `mint(address, value)` call by any caller succeeds, crediting the
target balance and `totalSupply` by `value`. -/
theorem claim_mint_unrestricted (st : Storage) (sender address : Addr) (value : Nat) :
    ∃ st2, mint st sender address value = Except.ok st2 ∧
      st2.totalSupply = st.totalSupply + value ∧
      getBalance st2 address = getBalance st address + value := by
  obtain ⟨st2, heq, _, _, hts, _, hbal⟩ := mint_spec st sender address value
  exact ⟨st2, heq, hts, hbal⟩

/-- C3 counterexample: caller 1 is not the administrator, the ledger is not
paused, caller ≠ from, and the allowance of (from = 2, caller = 1) reads as
zero, so with amount 0 the claim says the call is permitted; the code instead
fails with a missing-key failure (account 2 was never materialized), not
`NotAllowed`. -/
theorem claim_transfer_auth_counterexample :
    (initialState 0).paused = false ∧
    (1 : Addr) ≠ (initialState 0).administrator ∧
    getAllowance (initialState 0) 2 1 = 0 ∧ (0 : Nat) ≤ 0 ∧
    transfer (initialState 0) 1 2 3 0 = Except.error Err.MissingKey := by
  refine ⟨rfl, by decide, by decide, by decide, by decide⟩

/-- C3 (amended): the transfer authorization check succeeds iff the caller is
the administrator, or the ledger is unpaused and (caller = from, or from's
account exists, holds an approval entry for the caller, and that entry is at
least the amount); it fails `NotAllowed` when paused (non-admin) or when a
present entry is insufficient; it fails with a missing-key failure when, on
the third-party path, the from account or the approval entry is absent
(absence is not treated as zero); any authorization failure makes `transfer`
fail with the same error and leaves the state unchanged. -/
theorem claim_transfer_auth_spec (st : Storage) (sender from_ to_ : Addr) (value : Nat) :
    (transferAuthCheck st sender from_ value = Except.ok () ↔
      (sender = st.administrator ∨ (st.paused = false ∧ (from_ = sender ∨
        ∃ w, allowanceEntry st from_ sender = some w ∧ value ≤ w)))) ∧
    (transferAuthCheck st sender from_ value = Except.error Err.NotAllowed ↔
      (sender ≠ st.administrator ∧ (st.paused = true ∨ (from_ ≠ sender ∧
        ∃ w, allowanceEntry st from_ sender = some w ∧ w < value)))) ∧
    (transferAuthCheck st sender from_ value = Except.error Err.MissingKey ↔
      (sender ≠ st.administrator ∧ st.paused = false ∧ from_ ≠ sender ∧
        allowanceEntry st from_ sender = none)) ∧
    (∀ e, transferAuthCheck st sender from_ value = Except.error e →
      transfer st sender from_ to_ value = Except.error e ∧
      runOp st (Op.transferOp sender from_ to_ value) = st) := by
  refine ⟨transferAuthCheck_ok_iff st sender from_ value,
    transferAuthCheck_notAllowed_iff st sender from_ value,
    transferAuthCheck_missing_iff st sender from_ value, ?_⟩
  intro e he
  have ht := transfer_auth_error st sender from_ to_ value e he
  refine ⟨ht, ?_⟩
  rw [runOp]
  simp only [applyOp]
  rw [ht]

theorem claim_transfer_auth_spec_witness :
    transfer (initialState 0) 1 2 3 5 = Except.error Err.MissingKey ∧
    runOp (initialState 0) (Op.transferOp 1 2 3 5) = initialState 0 :=
  (claim_transfer_auth_spec (initialState 0) 1 2 3 5).2.2.2 Err.MissingKey (by decide)

/-- C4 counterexample: an authorized self-transfer with sufficient balance
succeeds but leaves `balance[from]` unchanged (5, not 5 - 1), contradicting
the claim that `balance[from]` decreases by the amount on every success. -/
theorem claim_transfer_postcondition_counterexample :
    transfer { balances := [(1, { balance := 5, approvals := [] })],
               totalSupply := 5, administrator := 0, paused := false } 1 1 1 1
      = Except.ok { balances := [(1, { balance := 5, approvals := [] })],
                    totalSupply := 5, administrator := 0, paused := false } ∧
    getBalance { balances := [(1, { balance := 5, approvals := [] })],
                 totalSupply := 5, administrator := 0, paused := false } 1 = 5 := by
  constructor
  · decide
  · decide

/-- C4 (amended): for every authorized transfer, if `balance[from] < value`
it fails `InsufficientBalance`; otherwise it succeeds and, when `from ≠ to`,
`balance[from]` decreases and `balance[to]` increases by the amount (a
self-transfer leaves the balance unchanged), and exactly when the caller is
neither `from` nor the administrator the caller's allowance from `from`
decreases by exactly the amount. -/
theorem claim_transfer_postcondition (st : Storage) (sender from_ to_ : Addr)
    (value : Nat)
    (hauth : transferAuthCheck st sender from_ value = Except.ok ()) :
    (getBalance st from_ < value →
      transfer st sender from_ to_ value = Except.error Err.InsufficientBalance) ∧
    (value ≤ getBalance st from_ →
      ∃ st2, transfer st sender from_ to_ value = Except.ok st2 ∧
        (from_ ≠ to_ → getBalance st2 from_ + value = getBalance st from_ ∧
          getBalance st2 to_ = getBalance st to_ + value) ∧
        (from_ = to_ → getBalance st2 from_ = getBalance st from_) ∧
        ((from_ ≠ sender ∧ sender ≠ st.administrator) →
          getAllowance st2 from_ sender + value = getAllowance st from_ sender) ∧
        (¬(from_ ≠ sender ∧ sender ≠ st.administrator) →
          getAllowance st2 from_ sender = getAllowance st from_ sender)) := by
  constructor
  · intro hlt
    exact transfer_insufficient st sender from_ to_ value hauth hlt
  · intro hle
    obtain ⟨st2, heq, _, _, _, _, hself, hne, hdec, hkeep⟩ :=
      transfer_ok_spec st sender from_ to_ value hauth hle
    exact ⟨st2, heq, hne, hself, hdec, hkeep⟩

theorem claim_transfer_postcondition_witness :
    (getBalance (⟨[(1, ⟨10, [(2, 5)]⟩)], 10, 0, false⟩ : Storage) 1 < 4 →
      transfer (⟨[(1, ⟨10, [(2, 5)]⟩)], 10, 0, false⟩ : Storage) 2 1 3 4
        = Except.error Err.InsufficientBalance) ∧
    (4 ≤ getBalance (⟨[(1, ⟨10, [(2, 5)]⟩)], 10, 0, false⟩ : Storage) 1 →
      ∃ st2, transfer (⟨[(1, ⟨10, [(2, 5)]⟩)], 10, 0, false⟩ : Storage) 2 1 3 4
          = Except.ok st2 ∧
        ((1 : Addr) ≠ 3 →
          getBalance st2 1 + 4 = getBalance (⟨[(1, ⟨10, [(2, 5)]⟩)], 10, 0, false⟩ : Storage) 1 ∧
          getBalance st2 3 = getBalance (⟨[(1, ⟨10, [(2, 5)]⟩)], 10, 0, false⟩ : Storage) 3 + 4) ∧
        ((1 : Addr) = 3 →
          getBalance st2 1 = getBalance (⟨[(1, ⟨10, [(2, 5)]⟩)], 10, 0, false⟩ : Storage) 1) ∧
        (((1 : Addr) ≠ 2 ∧ (2 : Addr) ≠ (⟨[(1, ⟨10, [(2, 5)]⟩)], 10, 0, false⟩ : Storage).administrator) →
          getAllowance st2 1 2 + 4 = getAllowance (⟨[(1, ⟨10, [(2, 5)]⟩)], 10, 0, false⟩ : Storage) 1 2) ∧
        (¬((1 : Addr) ≠ 2 ∧ (2 : Addr) ≠ (⟨[(1, ⟨10, [(2, 5)]⟩)], 10, 0, false⟩ : Storage).administrator) →
          getAllowance st2 1 2 = getAllowance (⟨[(1, ⟨10, [(2, 5)]⟩)], 10, 0, false⟩ : Storage) 1 2)) :=
  claim_transfer_postcondition (⟨[(1, ⟨10, [(2, 5)]⟩)], 10, 0, false⟩ : Storage) 2 1 3 4 (by decide)



/-- C5: `approve` fails `Paused` while the ledger is paused; otherwise it
fails `UnsafeAllowanceChange` iff the currently stored allowance for the
spender and the requested amount are both non-zero; otherwise it succeeds
and the stored allowance for (caller, spender) becomes exactly the amount. -/
theorem claim_approve_spec (st : Storage) (sender spender : Addr) (value : Nat) :
    (st.paused = true → approve st sender spender value = Except.error Err.Paused) ∧
    (st.paused = false →
      ((getAllowance st sender spender ≠ 0 ∧ value ≠ 0) →
        approve st sender spender value = Except.error Err.UnsafeAllowanceChange) ∧
      ((getAllowance st sender spender = 0 ∨ value = 0) →
        ∃ st2, approve st sender spender value = Except.ok st2 ∧
          getAllowance st2 sender spender = value)) := by
  refine ⟨approve_paused st sender spender value, ?_⟩
  intro hp
  constructor
  · intro h
    exact approve_change_rejected st sender spender value hp h.1 h.2
  · intro hok
    obtain ⟨st2, heq, _, _, _, _, hset⟩ := approve_success st sender spender value hp hok
    exact ⟨st2, heq, hset⟩

theorem claim_approve_spec_witness :
    ∃ st2, approve (initialState 0) 1 2 5 = Except.ok st2 ∧
      getAllowance st2 1 2 = 5 :=
  ((claim_approve_spec (initialState 0) 1 2 5).2 rfl).2 (Or.inl (by decide))

/-- C6 counterexample: the caller is the administrator and the target's
balance reads as zero, which is not below the amount 0, so the claim implies
the call succeeds; the code fails with a missing-key failure because the
account was never materialized (`burn` reads `balances[address]` directly). -/
theorem claim_burn_spec_counterexample :
    (0 : Addr) = (initialState 0).administrator ∧
    getBalance (initialState 0) 1 = 0 ∧ ¬(getBalance (initialState 0) 1 < 0) ∧
    burn (initialState 0) 0 1 0 = Except.error Err.MissingKey := by
  refine ⟨rfl, by decide, by decide, by decide⟩

/-- C6 (amended): `burn` fails `NotAdmin` for a non-administrator caller;
for an administrator caller it fails with a missing-key failure when the
target account is absent; when the account exists it fails
`InsufficientBalance` if its balance is below the amount, and otherwise
(amount also at most `totalSupply`, which holds in every reachable state)
succeeds, decreasing the balance and `totalSupply` by the amount; every
failure leaves the state unchanged. -/
theorem claim_burn_spec (st : Storage) (sender address : Addr) (value : Nat) :
    (sender ≠ st.administrator →
      burn st sender address value = Except.error Err.NotAdmin) ∧
    (sender = st.administrator → lookupA st.balances address = none →
      burn st sender address value = Except.error Err.MissingKey) ∧
    (∀ acc, sender = st.administrator → lookupA st.balances address = some acc →
      (acc.balance < value →
        burn st sender address value = Except.error Err.InsufficientBalance) ∧
      (value ≤ acc.balance → value ≤ st.totalSupply →
        ∃ st2, burn st sender address value = Except.ok st2 ∧
          getBalance st2 address + value = getBalance st address ∧
          st2.totalSupply + value = st.totalSupply)) ∧
    (∀ e, burn st sender address value = Except.error e →
      runOp st (Op.burnOp sender address value) = st) := by
  refine ⟨burn_not_admin st sender address value,
    burn_missing st sender address value, ?_, ?_⟩
  · intro acc hadm hacc
    refine ⟨burn_insufficient st sender address value acc hadm hacc, ?_⟩
    intro hble hsle
    refine ⟨_, burn_success st sender address value acc hadm hacc hble hsle, ?_, ?_⟩
    · simp only [getBalance, lookupA_insertA_self, hacc]
      omega
    · dsimp only
      omega
  · intro e he
    rw [runOp]
    simp only [applyOp]
    rw [he]

theorem claim_burn_spec_witness :
    ∃ st2, burn (⟨[(1, ⟨5, []⟩)], 5, 0, false⟩ : Storage) 0 1 2 = Except.ok st2 ∧
      getBalance st2 1 + 2 = getBalance (⟨[(1, ⟨5, []⟩)], 5, 0, false⟩ : Storage) 1 ∧
      st2.totalSupply + 2 = (⟨[(1, ⟨5, []⟩)], 5, 0, false⟩ : Storage).totalSupply :=
  ((claim_burn_spec (⟨[(1, ⟨5, []⟩)], 5, 0, false⟩ : Storage) 0 1 2).2.2.1
    ⟨5, []⟩ rfl (by decide)).2 (by decide) (by decide)

/-- C7: `transfer` never fails with the `sp.as_nat` underflow error: every
call either succeeds or fails with `NotAllowed`, a missing-key failure, or
`InsufficientBalance` — the underflow branches of the two natural
subtractions are unreachable. -/
theorem claim_transfer_no_underflow (st : Storage) (sender from_ to_ : Addr)
    (value : Nat) :
    (∃ st2, transfer st sender from_ to_ value = Except.ok st2) ∨
    transfer st sender from_ to_ value = Except.error Err.NotAllowed ∨
    transfer st sender from_ to_ value = Except.error Err.MissingKey ∨
    transfer st sender from_ to_ value = Except.error Err.InsufficientBalance := by
  cases hauth : transferAuthCheck st sender from_ value with
  | error e =>
    have ht := transfer_auth_error st sender from_ to_ value e hauth
    rcases transferAuthCheck_err_range st sender from_ value e hauth with h | h
    · subst h
      exact Or.inr (Or.inr (Or.inl ht))
    · subst h
      exact Or.inr (Or.inl ht)
  | ok u =>
    cases u
    by_cases hbal : value ≤ getBalance st from_
    · obtain ⟨st2, heq, -⟩ := transfer_ok_spec st sender from_ to_ value hauth hbal
      exact Or.inl ⟨st2, heq⟩
    · exact Or.inr (Or.inr (Or.inr
        (transfer_insufficient st sender from_ to_ value hauth (by omega))))

/-- C8: an authorized self-transfer with sufficient balance succeeds, leaves
the balance unchanged, and still decrements the caller's allowance by the
amount when the caller is neither the owner nor the administrator. -/
theorem claim_self_transfer (st : Storage) (sender from_ : Addr) (value : Nat)
    (hauth : transferAuthCheck st sender from_ value = Except.ok ())
    (hbal : value ≤ getBalance st from_) :
    ∃ st2, transfer st sender from_ from_ value = Except.ok st2 ∧
      getBalance st2 from_ = getBalance st from_ ∧
      ((from_ ≠ sender ∧ sender ≠ st.administrator) →
        getAllowance st2 from_ sender + value = getAllowance st from_ sender) := by
  obtain ⟨st2, heq, _, _, _, _, hself, _, hdec, _⟩ :=
    transfer_ok_spec st sender from_ from_ value hauth hbal
  exact ⟨st2, heq, hself rfl, hdec⟩

theorem claim_self_transfer_witness :
    ∃ st2, transfer (⟨[(1, ⟨5, [(2, 3)]⟩)], 5, 0, false⟩ : Storage) 2 1 1 2
        = Except.ok st2 ∧
      getBalance st2 1 = getBalance (⟨[(1, ⟨5, [(2, 3)]⟩)], 5, 0, false⟩ : Storage) 1 ∧
      (((1 : Addr) ≠ 2 ∧
          (2 : Addr) ≠ (⟨[(1, ⟨5, [(2, 3)]⟩)], 5, 0, false⟩ : Storage).administrator) →
        getAllowance st2 1 2 + 2 =
          getAllowance (⟨[(1, ⟨5, [(2, 3)]⟩)], 5, 0, false⟩ : Storage) 1 2) :=
  claim_self_transfer (⟨[(1, ⟨5, [(2, 3)]⟩)], 5, 0, false⟩ : Storage) 2 1 2
    (by decide) (by decide)

/-- C9: the four views never fail and never change the storage; an absent
account reads as balance 0, and an absent owner or absent approval entry
reads as allowance 0. -/
theorem claim_queries_total (st : Storage) (address owner spender : Addr) :
    getBalanceEp st address = Except.ok (st, getBalance st address) ∧
    getAllowanceEp st owner spender = Except.ok (st, getAllowance st owner spender) ∧
    getTotalSupplyEp st = Except.ok (st, st.totalSupply) ∧
    getAdministratorEp st = Except.ok (st, st.administrator) ∧
    (lookupA st.balances address = none → getBalance st address = 0) ∧
    (lookupA st.balances owner = none → getAllowance st owner spender = 0) ∧
    (∀ acc, lookupA st.balances owner = some acc →
      lookupA acc.approvals spender = none → getAllowance st owner spender = 0) := by
  refine ⟨?_, ?_, rfl, rfl, ?_, ?_, ?_⟩
  · unfold getBalanceEp getBalance
    cases h : lookupA st.balances address with
    | some acc => simp [h]
    | none => simp [h]
  · unfold getAllowanceEp getAllowance
    cases h : lookupA st.balances owner with
    | some acc => simp [h]
    | none => simp [h]
  · intro h
    simp [getBalance, h]
  · intro h
    simp [getAllowance, h]
  · intro acc h1 h2
    simp [getAllowance, h1, h2]

theorem claim_queries_total_witness :
    getBalance (initialState 0) 1 = 0 ∧
    getAllowance (initialState 0) 2 3 = 0 ∧
    getAllowance (⟨[(2, ⟨1, []⟩)], 1, 0, false⟩ : Storage) 2 3 = 0 :=
  ⟨(claim_queries_total (initialState 0) 1 2 3).2.2.2.2.1 (by decide),
   (claim_queries_total (initialState 0) 1 2 3).2.2.2.2.2.1 (by decide),
   (claim_queries_total (⟨[(2, ⟨1, []⟩)], 1, 0, false⟩ : Storage) 1 2 3).2.2.2.2.2.2
     ⟨1, []⟩ (by decide) (by decide)⟩

/-- C10: a successful `setAdministrator` changes only the administrator
field and a successful `setPause` changes only the paused flag; balances
(with their approval maps) and `totalSupply` are untouched. -/
theorem claim_admin_ops_frame (st st2 st3 : Storage) (sender newAdmin : Addr)
    (flag : Bool) :
    (setAdministrator st sender newAdmin = Except.ok st2 →
      st2.balances = st.balances ∧ st2.totalSupply = st.totalSupply ∧
      st2.paused = st.paused ∧ st2.administrator = newAdmin) ∧
    (setPause st sender flag = Except.ok st3 →
      st3.balances = st.balances ∧ st3.totalSupply = st.totalSupply ∧
      st3.administrator = st.administrator ∧ st3.paused = flag) := by
  constructor
  · intro h
    unfold setAdministrator at h
    split at h
    · injection h with h
      subst h
      exact ⟨rfl, rfl, rfl, rfl⟩
    · cases h
  · intro h
    unfold setPause at h
    split at h
    · injection h with h
      subst h
      exact ⟨rfl, rfl, rfl, rfl⟩
    · cases h

theorem claim_admin_ops_frame_witness :
    ((⟨[], 0, 7, false⟩ : Storage).balances = (initialState 0).balances ∧
      (⟨[], 0, 7, false⟩ : Storage).totalSupply = (initialState 0).totalSupply ∧
      (⟨[], 0, 7, false⟩ : Storage).paused = (initialState 0).paused ∧
      (⟨[], 0, 7, false⟩ : Storage).administrator = 7) ∧
    ((⟨[], 0, 0, true⟩ : Storage).balances = (initialState 0).balances ∧
      (⟨[], 0, 0, true⟩ : Storage).totalSupply = (initialState 0).totalSupply ∧
      (⟨[], 0, 0, true⟩ : Storage).administrator = (initialState 0).administrator ∧
      (⟨[], 0, 0, true⟩ : Storage).paused = true) :=
  ⟨(claim_admin_ops_frame (initialState 0) ⟨[], 0, 7, false⟩ ⟨[], 0, 0, true⟩ 0 7 true).1
      (by decide),
   (claim_admin_ops_frame (initialState 0) ⟨[], 0, 7, false⟩ ⟨[], 0, 0, true⟩ 0 7 true).2
      (by decide)⟩


end FA12
